import Mathlib

/-!
# Verification of the PLHub incremental build-cache component

This file is a shallow embedding of the build-cache / dependency-graph logic of
`tools/build_automation.py` (classes `BuildCache` and `BuildAutomation`) and of
the exit-code behaviour of the `plhub.py` CLI dispatcher and the SDK
compatibility wrapper `CLI/cli.py`.

Modelling conventions:
* Python strings are Lean `String`s; where the Python code inspects characters
  (the import extractor) we work on `List Char` obtained by `String.toList`.
* `pathlib.Path` values are flattened to their `str()` form.  The path
  operations used by the source (`.parent`, `/`-join, `.resolve()`) are fields
  of the environment `Env`, and path ordering (used by `sorted`) is modelled by
  the `String` order.
* The filesystem is a snapshot `fs : String → Option String` mapping a path to
  the contents of the file stored there (`none` = the path does not exist).
* External collaborators are parameters of `Env`: `sha256` stands for
  `hashlib.sha256(...).hexdigest()`, and `compile` stands for
  `BuildAutomation.compile_file` (binary lookup plus subprocess invocation),
  returning the `(success, message)` pair exactly as the Python method does.
* `json.load` / `json.dump` are modelled by the `CacheFile` type: a cache file
  on disk is either `missing`, `notJson` (text rejected by `json.load`), or
  `parsed j` for a JSON value `j`; the stdlib round-trips JSON values.
* In-place mutation (`self.cache....`) becomes explicit state passing: each
  function returns the updated `BuildCache` alongside its result.
-/

/-- JSON values, as produced by `json.load` on a cache file. -/
inductive Json where
  | jnull : Json
  | jbool : Bool → Json
  | jnum : Int → Json
  | jstr : String → Json
  | jarr : List Json → Json
  | jobj : List (String × Json) → Json

/-- The `BuildCache` dataclass of `tools/build_automation.py`.  Python dicts
with unique keys are modelled as insertion-ordered association lists. -/
structure BuildCache where
  file_hashes : List (String × String)
  last_build : String
  dependencies : List (String × List String)
  build_count : Int
deriving DecidableEq

/-- The observable content of the cache file on disk: absent, text that
`json.load` rejects, or text that parses to a JSON value. -/
inductive CacheFile where
  | missing : CacheFile
  | notJson : CacheFile
  | parsed : Json → CacheFile

/-- The cache returned by `BuildCache.load` on any failure:
`cls(file_hashes={}, last_build='', dependencies={}, build_count=0)`. -/
def emptyCache : BuildCache := ⟨[], "", [], 0⟩

/-- Lookup of a key in a JSON object, mirroring Python dict access on the
object parsed by `json.load` (keys are unique there). -/
def jlookup (fields : List (String × Json)) (k : String) : Option Json :=
  (fields.find? (fun kv => kv.1 == k)).map (fun kv => kv.2)

/-- A JSON string, as the value of `last_build`. -/
def decodeStr : Json → Option String
  | Json.jstr s => some s
  | _ => none

/-- A JSON integer, as the value of `build_count`. -/
def decodeInt : Json → Option Int
  | Json.jnum n => some n
  | _ => none

/-- Elements of a JSON array that must all be strings. -/
def decodeStrs : List Json → Option (List String)
  | [] => some []
  | j :: rest =>
    match decodeStr j, decodeStrs rest with
    | some s, some r => some (s :: r)
    | _, _ => none

/-- A JSON array of strings, as a `dependencies` value. -/
def decodeStrList : Json → Option (List String)
  | Json.jarr xs => decodeStrs xs
  | _ => none

/-- Fields of a JSON object whose values must all be strings. -/
def decodeStrPairs : List (String × Json) → Option (List (String × String))
  | [] => some []
  | kv :: rest =>
    match decodeStr kv.2, decodeStrPairs rest with
    | some s, some r => some ((kv.1, s) :: r)
    | _, _ => none

/-- Fields of a JSON object whose values must all be arrays of strings. -/
def decodeDepPairs : List (String × Json) → Option (List (String × List String))
  | [] => some []
  | kv :: rest =>
    match decodeStrList kv.2, decodeDepPairs rest with
    | some s, some r => some ((kv.1, s) :: r)
    | _, _ => none

/-- The `file_hashes` value: a JSON object of strings. -/
def decodeStrMapJ : Json → Option (List (String × String))
  | Json.jobj fs => decodeStrPairs fs
  | _ => none

/-- The `dependencies` value: a JSON object of arrays of strings. -/
def decodeDepMapJ : Json → Option (List (String × List String))
  | Json.jobj fs => decodeDepPairs fs
  | _ => none

/-- The field names of the `BuildCache` dataclass. -/
def cacheKeys : List String := ["file_hashes", "last_build", "dependencies", "build_count"]

/-- Whether `cls(**data)` accepts the keyword set `ks`: the constructor raises
`TypeError` unless the keys are exactly the four dataclass fields. -/
def keysMatch (ks : List String) : Bool :=
  ks.length == 4 && cacheKeys.all (fun k => ks.contains k)

/-- `return cls(**data)` inside `BuildCache.load`: fails (raises, hence
`none`) unless `data` is an object whose keys are exactly the dataclass
fields.  Python's dataclass constructor performs no runtime type validation;
field values of the wrong JSON shape are outside this typed model and are
mapped to construction failure as well. -/
def decodeCache : Json → Option BuildCache
  | Json.jobj fields =>
    if keysMatch (fields.map (fun kv => kv.1)) then
      match decodeStrMapJ ((jlookup fields "file_hashes").getD Json.jnull),
            decodeStr ((jlookup fields "last_build").getD Json.jnull),
            decodeDepMapJ ((jlookup fields "dependencies").getD Json.jnull),
            decodeInt ((jlookup fields "build_count").getD Json.jnull) with
      | some fh, some lb, some dp, some bc => some ⟨fh, lb, dp, bc⟩
      | _, _, _, _ => none
    else none
  | _ => none

/-- `BuildCache.load`: any failure (missing file, `json.load` error, or
constructor error) is swallowed and a fresh empty cache is returned. -/
def BuildCache.load (file : CacheFile) : BuildCache :=
  match file with
  | CacheFile.missing => emptyCache
  | CacheFile.notJson => emptyCache
  | CacheFile.parsed j =>
    match decodeCache j with
    | some c => c
    | none => emptyCache

/-- `asdict(self)` on the `file_hashes` field. -/
def encodeStrPairs (m : List (String × String)) : List (String × Json) :=
  m.map (fun kv => (kv.1, Json.jstr kv.2))

/-- `asdict(self)` on the `dependencies` field. -/
def encodeDepPairs (m : List (String × List String)) : List (String × Json) :=
  m.map (fun kv => (kv.1, Json.jarr (kv.2.map (fun s => Json.jstr s))))

/-- `json.dump(asdict(self), f)`: the JSON value written by `BuildCache.save`
(`asdict` emits the fields in declaration order). -/
def encodeCache (c : BuildCache) : Json :=
  Json.jobj [("file_hashes", Json.jobj (encodeStrPairs c.file_hashes)),
             ("last_build", Json.jstr c.last_build),
             ("dependencies", Json.jobj (encodeDepPairs c.dependencies)),
             ("build_count", Json.jnum c.build_count)]

/-- `BuildCache.save`: after saving, the cache file holds the JSON
serialization of the cache. -/
def BuildCache.save (c : BuildCache) : CacheFile :=
  CacheFile.parsed (encodeCache c)

/-- The whitespace characters removed by Python's `str.strip()` (ASCII part;
the sources contain no exotic unicode whitespace). -/
def isPySpace (c : Char) : Bool :=
  c == ' ' || c == Char.ofNat 9 || c == Char.ofNat 10 || c == Char.ofNat 13 ||
  c == Char.ofNat 11 || c == Char.ofNat 12

/-- Python `line.strip()`: drop leading and trailing whitespace. -/
def pyStrip (l : List Char) : List Char :=
  ((l.dropWhile isPySpace).reverse.dropWhile isPySpace).reverse

/-- The double-quote character used as the split delimiter in
`line.split('"')`. -/
def quoteChar : Char := Char.ofNat 34

/-- Python `s.split(sep)` for a one-character separator: all parts between
occurrences of the separator, in order (always at least one part). -/
def pySplit (q : Char) : List Char → List (List Char)
  | [] => [[]]
  | x :: xs =>
    if x == q then [] :: pySplit q xs
    else (x :: (pySplit q xs).headD []) :: (pySplit q xs).tail

/-- Iterating a text file line by line (`for line in f`), modelled as
splitting the contents on the newline character; the line terminators are
removed by the subsequent `strip()` in any case. -/
def pyLines (content : String) : List (List Char) :=
  pySplit (Char.ofNat 10) content.toList

/-- The per-line body of `BuildAutomation.extract_imports`:
`line = line.strip()`; if `line.startswith('Import') or
line.startswith('import')` then `parts = line.split('"')`; if
`len(parts) >= 2` the import path `parts[1]` is emitted. -/
def lineImport (line : List Char) : Option String :=
  if "Import".toList.isPrefixOf (pyStrip line)
      || "import".toList.isPrefixOf (pyStrip line) then
    ((pySplit quoteChar (pyStrip line))[1]?).map (fun cs => String.mk cs)
  else none

/-- The accumulation loop of `BuildAutomation.extract_imports` over the lines
of the file. -/
def importsOfLines (lines : List (List Char)) : List String :=
  lines.foldl
    (fun acc line =>
      match lineImport line with
      | some p => acc ++ [p]
      | none => acc)
    []

/-- Spec-side description of one line of the import extractor, written from
the specification's words: a line is an import declaration exactly when its
stripped form begins with the token Import or import; the first substring
delimited by double quotes is the import path.  To be compared with
`lineImport`, which is translated from the source. -/
def importOfLineSpec (line : List Char) : Option String :=
  if ("Import".toList.isPrefixOf (pyStrip line)
        || "import".toList.isPrefixOf (pyStrip line))
      && (pyStrip line).contains quoteChar then
    some (String.mk
      ((((pyStrip line).dropWhile (fun c => c != quoteChar)).drop 1).takeWhile
        (fun c => c != quoteChar)))
  else none

/-- The environment of one build invocation: a filesystem snapshot, the
discovered source files (`find_source_files`, i.e. `rglob('*.poh')`), the
path operations of `pathlib` used by the source, and the two external
collaborators (`hashlib.sha256` and the compiler subprocess wrapped by
`compile_file`). -/
structure Env where
  fs : String → Option String
  sources : List String
  parent : String → String
  join : String → String → String
  resolve : String → String
  sha256 : String → String
  compile : String → Bool × String

/-- `BuildAutomation.compute_file_hash`: empty-string sentinel for a missing
file, otherwise the digest of the contents. -/
def compute_file_hash (env : Env) (p : String) : String :=
  match env.fs p with
  | none => ""
  | some c => env.sha256 c

/-- Python `d.get(k, default)` on a string-valued dict. -/
def dictGet (d : List (String × String)) (k : String) (dflt : String) : String :=
  match d.find? (fun kv => kv.1 == k) with
  | some kv => kv.2
  | none => dflt

/-- Python `d[k] = v` on a dict with unique keys: replace the binding if the
key is present, otherwise append it. -/
def dictSet : List (String × String) → String → String → List (String × String)
  | [], k, v => [(k, v)]
  | kv :: rest, k, v =>
    if kv.1 == k then (kv.1, v) :: rest else kv :: dictSet rest k v

/-- `BuildAutomation.has_file_changed`: fresh digest versus
`self.cache.file_hashes.get(str(path), '')`. -/
def has_file_changed (env : Env) (cache : BuildCache) (p : String) : Bool :=
  compute_file_hash env p != dictGet cache.file_hashes p ""

/-- `BuildAutomation.extract_imports`: reads the file (a missing file raises
`OSError`, which is caught, returning the imports collected so far, i.e. the
empty list) and scans it line by line. -/
def extract_imports (env : Env) (p : String) : List String :=
  match env.fs p with
  | none => []
  | some content => importsOfLines (pyLines content)

/-- `BuildAutomation.resolve_import_path`: try the import path relative to
the directory of the importing file, then relative to the project root;
`None` when neither exists. -/
def resolve_import_path (env : Env) (root : String) (imp : String) (source : String) :
    Option String :=
  let relative := env.join (env.parent source) imp
  if (env.fs relative).isSome then some (env.resolve relative)
  else
    let from_root := env.join root imp
    if (env.fs from_root).isSome then some (env.resolve from_root)
    else none

/-- `BuildAutomation.build_dependency_graph`: for every discovered source
file, the list of its resolvable imports (unresolvable ones are dropped). -/
def build_dependency_graph (env : Env) (root : String) : List (String × List String) :=
  env.sources.map
    (fun f => (f, (extract_imports env f).filterMap
      (fun imp => resolve_import_path env root imp f)))

/-- Python `set.add`: sets are modelled as duplicate-free lists in insertion
order; membership is what matters. -/
def setInsert (s : List String) (x : String) : List String :=
  if s.contains x then s else s ++ [x]

/-- Python `set(iterable)`. -/
def pySet (l : List String) : List String :=
  l.foldl setInsert []

/-- The expansion loop of `BuildAutomation.get_files_to_rebuild`: start from
`set(changed_files)` and add every file whose dependency list contains a
changed file. -/
def expandRebuild (changed : List String) (graph : List (String × List String)) :
    List String :=
  changed.foldl
    (fun acc c =>
      graph.foldl
        (fun acc2 fd => if fd.2.contains c then setInsert acc2 fd.1 else acc2)
        acc)
    (pySet changed)

/-- `BuildAutomation.get_files_to_rebuild`: recomputes the dependency graph,
stores it into `self.cache.dependencies`, and returns the expanded rebuild
set. -/
def get_files_to_rebuild (env : Env) (root : String) (cache : BuildCache)
    (changed : List String) : BuildCache × List String :=
  let dependencies := build_dependency_graph env root
  ({ cache with dependencies := dependencies }, expandRebuild changed dependencies)

/-- The head of `BuildAutomation.build_all`: the force path takes all sources,
the incremental path collects changed files and expands them with their
direct dependents. -/
def rebuildPlan (env : Env) (root : String) (force : Bool) (cache : BuildCache) :
    BuildCache × List String :=
  if force then (cache, pySet env.sources)
  else
    let changed := pySet (env.sources.filter (fun f => has_file_changed env cache f))
    get_files_to_rebuild env root cache changed

/-- Lexicographic comparison of character lists, by code point: the order in
which Python compares the flattened path strings. -/
def charListLe : List Char → List Char → Bool
  | [], _ => true
  | _ :: _, [] => false
  | x :: xs, y :: ys => if x = y then charListLe xs ys else decide (x < y)

/-- Lexicographic order on path strings. -/
def strLeB (a b : String) : Bool := charListLe a.toList b.toList

/-- `sorted(files_to_build)`: deterministic lexicographic build order. -/
def pySorted (l : List String) : List String :=
  List.insertionSort (fun a b => strLeB a b = true) l

instance : IsTotal String (fun a b => strLeB a b = true) := by
  constructor
  intro a b
  unfold strLeB
  suffices h : ∀ (xs ys : List Char), charListLe xs ys = true ∨ charListLe ys xs = true from
    h a.toList b.toList
  intro xs
  induction xs with
  | nil =>
    intro ys
    left
    rfl
  | cons x xs ih =>
    intro ys
    cases ys with
    | nil =>
      right
      rfl
    | cons y ys =>
      by_cases hxy : x = y
      · subst hxy
        simp only [charListLe, if_pos rfl]
        exact ih ys
      · simp only [charListLe, if_neg hxy, if_neg (Ne.symm hxy)]
        rcases lt_or_gt_of_ne hxy with h3 | h3
        · left
          exact decide_eq_true h3
        · right
          exact decide_eq_true h3

instance : IsTrans String (fun a b => strLeB a b = true) := by
  constructor
  intro a b c
  unfold strLeB
  suffices h : ∀ (xs ys zs : List Char),
      charListLe xs ys = true → charListLe ys zs = true → charListLe xs zs = true from
    fun h1 h2 => h a.toList b.toList c.toList h1 h2
  intro xs
  induction xs with
  | nil =>
    intro ys zs h1 h2
    rfl
  | cons x xs ih =>
    intro ys zs h1 h2
    cases ys with
    | nil => exact absurd h1 (by simp [charListLe])
    | cons y ys =>
      cases zs with
      | nil => exact absurd h2 (by simp [charListLe])
      | cons z zs =>
        by_cases hxy : x = y
        · subst hxy
          simp only [charListLe, if_pos rfl] at h1
          by_cases hyz : x = z
          · subst hyz
            simp only [charListLe, if_pos rfl] at h2 ⊢
            exact ih ys zs h1 h2
          · simp only [charListLe, if_neg hyz] at h2 ⊢
            exact h2
        · by_cases hyz : y = z
          · subst hyz
            simp only [charListLe, if_neg hxy] at h1 ⊢
            exact h1
          · simp only [charListLe, if_neg hxy] at h1
            simp only [charListLe, if_neg hyz] at h2
            have hxz : x < z := lt_trans (of_decide_eq_true h1) (of_decide_eq_true h2)
            simp only [charListLe, if_neg (ne_of_lt hxz)]
            exact decide_eq_true hxz

/-- The body of the compile loop of `BuildAutomation.build_all`: compile one
file; on success bump the success count and store the fresh digest, on
failure bump the failure count; always append the message. -/
def buildStep (env : Env) (st : BuildCache × Nat × Nat × List String) (p : String) :
    BuildCache × Nat × Nat × List String :=
  if (env.compile p).1 then
    ({ st.1 with file_hashes := dictSet st.1.file_hashes p (compute_file_hash env p) },
      st.2.1 + 1, st.2.2.1, st.2.2.2 ++ [(env.compile p).2])
  else
    (st.1, st.2.1, st.2.2.1 + 1, st.2.2.2 ++ [(env.compile p).2])

/-- The outcome of `BuildAutomation.build_all`: the in-memory cache, whether
`self.cache.save(...)` was invoked (the content written is the returned
cache), and the `(success_count, failure_count, messages)` triple. -/
structure BuildResult where
  cache : BuildCache
  saved : Bool
  success_count : Nat
  failure_count : Nat
  messages : List String
deriving DecidableEq

/-- `BuildAutomation.build_all`: plan, early return on an empty plan, compile
loop in sorted order, then timestamp/counter update and save. -/
def build_all (env : Env) (root : String) (now : String) (force : Bool)
    (cache : BuildCache) : BuildResult :=
  let plan := rebuildPlan env root force cache
  if plan.2.isEmpty then
    ⟨plan.1, false, 0, 0, ["No files to build"]⟩
  else
    let st := (pySorted plan.2).foldl (buildStep env) (plan.1, 0, 0, [])
    ⟨{ st.1 with last_build := now, build_count := st.1.build_count + 1 },
      true, st.2.1, st.2.2.1, st.2.2.2⟩

/-- The subcommands of the `plhub.py` argument parser. -/
inductive PlhubCommand where
  | run | create | install | build | transpile | listCmd | release
deriving DecidableEq

/-- The dispatch tail of `main()` in `plhub.py` (after `parse_args`): with no
command it prints help and returns 0; otherwise it returns the handler's
result.  The pair is (help printed, return value); the process exits with
`sys.exit(main() or 0)`, i.e. with exactly this return value. -/
def plhub_main (cmd : Option PlhubCommand) (handler : PlhubCommand → Int) : Bool × Int :=
  match cmd with
  | none => (true, 0)
  | some c => (false, handler c)

/-- `run_program` in `plhub.py`: 1 when the file does not exist, 1 when the
interpreter raises, otherwise 0. -/
def run_program (fileExists : Bool) (runRaises : Bool) : Int :=
  if fileExists then (if runRaises then 1 else 0) else 1

/-- `main()` of the compatibility wrapper `CLI/cli.py`: without a `run`
command it prints help and returns 2; with one it runs the script, calling
`sys.exit(70)` on a runtime error.  The pair is (help printed, code). -/
def cli_wrapper_main (cmd : Option String) (runRaises : Bool) : Bool × Int :=
  match cmd with
  | none => (true, 2)
  | some _ => (false, if runRaises then 70 else 0)

/-! ## Concrete instances used to evaluate the model -/

/-- An environment whose filesystem is empty (every lookup misses). -/
def envA : Env :=
  ⟨fun _ => none, [], id, fun a b => a ++ "/" ++ b, id, id, fun _ => (false, "")⟩

/-- A project with `main.poh` importing `util.poh`; the compiler succeeds on
`util.poh` and fails on `main.poh`. -/
def envB : Env :=
  ⟨fun p =>
      if p == "/p/main.poh" then some "Import \"util.poh\""
      else if p == "/p/util.poh" then some "x2"
      else none,
    ["/p/main.poh", "/p/util.poh"],
    fun _ => "/p",
    fun a b => a ++ "/" ++ b,
    id,
    fun c => "#" ++ c,
    fun p => (p == "/p/util.poh", "msg")⟩

/-- A cache in which `main.poh` is up to date and `util.poh` is stale. -/
def cacheB : BuildCache :=
  ⟨[("/p/main.poh", "#Import \"util.poh\""), ("/p/util.poh", "#x1")], "t0", [], 5⟩

/-- A single-file project whose one file changed and whose compiler always
fails. -/
def envC : Env :=
  ⟨fun p => if p == "/p/a.poh" then some "new" else none,
    ["/p/a.poh"],
    fun _ => "/p",
    fun a b => a ++ "/" ++ b,
    id,
    fun c => "#" ++ c,
    fun _ => (false, "boom")⟩

/-- A cache holding a stale digest for the single file of `envC`. -/
def cacheC : BuildCache := ⟨[("/p/a.poh", "old")], "t0", [], 0⟩

/-- A two-file project with no stored digests; the compiler succeeds on
`a.poh` and fails on `b.poh`. -/
def envD : Env :=
  ⟨fun p => if p == "/q/b.poh" || p == "/q/a.poh" then some "x" else none,
    ["/q/b.poh", "/q/a.poh"],
    fun _ => "/q",
    fun a b => a ++ "/" ++ b,
    id,
    fun c => "#" ++ c,
    fun p => (p == "/q/a.poh", String.append "m " p)⟩

/-- A single-file project that is fully up to date. -/
def envE : Env :=
  ⟨fun p => if p == "/p/a.poh" then some "x" else none,
    ["/p/a.poh"],
    fun _ => "/p",
    fun a b => a ++ "/" ++ b,
    id,
    fun c => "#" ++ c,
    fun _ => (true, "ok")⟩

/-- A cache matching `envE` on digests but holding a stale dependency map. -/
def cacheE : BuildCache := ⟨[("/p/a.poh", "#x")], "t0", [("old", ["edge"])], 7⟩

/-! ## Helper lemmas: set and dictionary operations -/

theorem mem_setInsert {s : List String} {x y : String} :
    y ∈ setInsert s x ↔ y ∈ s ∨ y = x := by
  unfold setInsert
  by_cases h : s.contains x = true
  · simp only [h, if_true]
    constructor
    · exact Or.inl
    · rintro (hy | rfl)
      · exact hy
      · exact List.elem_iff.mp h
  · rw [if_neg h]
    simp

theorem mem_foldl_setInsert (l : List String) (acc : List String) (x : String) :
    x ∈ l.foldl setInsert acc ↔ x ∈ acc ∨ x ∈ l := by
  induction l generalizing acc with
  | nil => simp
  | cons a l ih =>
    simp only [List.foldl_cons, ih, mem_setInsert, List.mem_cons]
    tauto

theorem mem_pySet (l : List String) (x : String) : x ∈ pySet l ↔ x ∈ l := by
  unfold pySet
  rw [mem_foldl_setInsert]
  simp

theorem dictGet_cons (kv : String × String) (d : List (String × String))
    (k dflt : String) :
    dictGet (kv :: d) k dflt = if kv.1 == k then kv.2 else dictGet d k dflt := by
  by_cases h : kv.1 == k
  · simp [dictGet, List.find?_cons_of_pos, h]
  · simp [dictGet, List.find?_cons_of_neg, h]

theorem dictGet_dictSet_self (d : List (String × String)) (k v dflt : String) :
    dictGet (dictSet d k v) k dflt = v := by
  induction d with
  | nil => simp [dictSet, dictGet_cons, dictGet]
  | cons kv rest ih =>
    by_cases h : kv.1 == k
    · simp [dictSet, h, dictGet_cons]
    · simp [dictSet, h, dictGet_cons, ih]

theorem dictGet_dictSet_other (d : List (String × String)) (k v k' dflt : String)
    (h : (k' == k) = false) :
    dictGet (dictSet d k v) k' dflt = dictGet d k' dflt := by
  have hne : k' ≠ k := by simpa using h
  induction d with
  | nil =>
    have hkk : (k == k') = false := by
      simp only [beq_eq_false_iff_ne, ne_eq]
      intro e
      exact hne e.symm
    simp [dictSet, dictGet_cons, hkk]
  | cons kv rest ih =>
    by_cases hh : (kv.1 == k) = true
    · have h1 : kv.1 = k := by simpa using hh
      have h2 : (kv.1 == k') = false := by
        simp only [beq_eq_false_iff_ne, ne_eq, h1]
        intro e
        exact hne e.symm
      simp [dictSet, hh, dictGet_cons, h2]
    · simp [dictSet, hh, dictGet_cons, ih]

/-! ## Helper lemmas: the rebuild-set expansion -/

theorem mem_innerFold (graph : List (String × List String)) (c : String)
    (acc : List String) (x : String) :
    (x ∈ graph.foldl
        (fun acc2 fd => if fd.2.contains c then setInsert acc2 fd.1 else acc2) acc) ↔
      x ∈ acc ∨ ∃ fd ∈ graph, fd.1 = x ∧ c ∈ fd.2 := by
  induction graph generalizing acc with
  | nil => simp
  | cons g gs ih =>
    simp only [List.foldl_cons]
    rw [ih]
    by_cases h : g.2.contains c = true
    · have hc : c ∈ g.2 := List.elem_iff.mp h
      rw [if_pos h, mem_setInsert]
      constructor
      · rintro ((hx | rfl) | ⟨fd, hfd, hx, hcc⟩)
        · exact Or.inl hx
        · exact Or.inr ⟨g, List.mem_cons_self g gs, rfl, hc⟩
        · exact Or.inr ⟨fd, List.mem_cons_of_mem g hfd, hx, hcc⟩
      · rintro (hx | ⟨fd, hfd, hx, hcc⟩)
        · exact Or.inl (Or.inl hx)
        · rcases List.mem_cons.mp hfd with rfl | hfd2
          · exact Or.inl (Or.inr hx.symm)
          · exact Or.inr ⟨fd, hfd2, hx, hcc⟩
    · have hc : c ∉ g.2 := fun hm => h (List.elem_iff.mpr hm)
      rw [if_neg h]
      constructor
      · rintro (hx | ⟨fd, hfd, hx, hcc⟩)
        · exact Or.inl hx
        · exact Or.inr ⟨fd, List.mem_cons_of_mem g hfd, hx, hcc⟩
      · rintro (hx | ⟨fd, hfd, hx, hcc⟩)
        · exact Or.inl hx
        · rcases List.mem_cons.mp hfd with rfl | hfd2
          · exact absurd hcc hc
          · exact Or.inr ⟨fd, hfd2, hx, hcc⟩

theorem mem_outerFold (graph : List (String × List String)) (cs : List String)
    (acc : List String) (x : String) :
    (x ∈ cs.foldl
        (fun acc c => graph.foldl
          (fun acc2 fd => if fd.2.contains c then setInsert acc2 fd.1 else acc2) acc)
        acc) ↔
      x ∈ acc ∨ ∃ c ∈ cs, ∃ fd ∈ graph, fd.1 = x ∧ c ∈ fd.2 := by
  induction cs generalizing acc with
  | nil => simp
  | cons c cs ih =>
    simp only [List.foldl_cons]
    rw [ih, mem_innerFold]
    constructor
    · rintro ((hx | ⟨fd, hfd, hx, hcc⟩) | ⟨c2, hc2, fd, hfd, hx, hcc⟩)
      · exact Or.inl hx
      · exact Or.inr ⟨c, List.mem_cons_self c cs, fd, hfd, hx, hcc⟩
      · exact Or.inr ⟨c2, List.mem_cons_of_mem c hc2, fd, hfd, hx, hcc⟩
    · rintro (hx | ⟨c2, hc2, fd, hfd, hx, hcc⟩)
      · exact Or.inl (Or.inl hx)
      · rcases List.mem_cons.mp hc2 with rfl | hc3
        · exact Or.inl (Or.inr ⟨fd, hfd, hx, hcc⟩)
        · exact Or.inr ⟨c2, hc3, fd, hfd, hx, hcc⟩

theorem mem_expandRebuild (changed : List String) (graph : List (String × List String))
    (x : String) :
    x ∈ expandRebuild changed graph ↔
      x ∈ changed ∨ ∃ fd ∈ graph, fd.1 = x ∧ ∃ c ∈ changed, c ∈ fd.2 := by
  unfold expandRebuild
  rw [mem_outerFold, mem_pySet]
  constructor
  · rintro (hx | ⟨c, hc, fd, hfd, hx, hcc⟩)
    · exact Or.inl hx
    · exact Or.inr ⟨fd, hfd, hx, c, hc, hcc⟩
  · rintro (hx | ⟨fd, hfd, hx, c, hc, hcc⟩)
    · exact Or.inl hx
    · exact Or.inr ⟨c, hc, fd, hfd, hx, hcc⟩

theorem graph_keys (env : Env) (root : String) (pr : String × List String)
    (h : pr ∈ build_dependency_graph env root) :
    pr.1 ∈ env.sources ∧
      pr.2 = (extract_imports env pr.1).filterMap
        (fun imp => resolve_import_path env root imp pr.1) := by
  unfold build_dependency_graph at h
  obtain ⟨f, hf, heq⟩ := List.mem_map.mp h
  constructor
  · rw [← heq]
    exact hf
  · rw [← heq]

theorem rebuildPlan_subset (env : Env) (root : String) (force : Bool)
    (cache : BuildCache) (f : String)
    (h : f ∈ (rebuildPlan env root force cache).2) : f ∈ env.sources := by
  unfold rebuildPlan at h
  by_cases hf : force = true
  · rw [hf] at h
    simp only [if_true] at h
    exact (mem_pySet _ _).mp h
  · have hf2 : force = false := by
      cases force
      · rfl
      · exact absurd rfl hf
    rw [hf2] at h
    simp only [if_false, Bool.false_eq_true] at h
    unfold get_files_to_rebuild at h
    rw [mem_expandRebuild] at h
    rcases h with hx | ⟨fd, hfd, hx, _⟩
    · rw [mem_pySet] at hx
      exact (List.mem_filter.mp hx).1
    · rw [← hx]
      exact (graph_keys env root fd hfd).1

theorem changed_mem_plan (env : Env) (root : String) (cache : BuildCache) (f : String)
    (hs : f ∈ env.sources) (hc : has_file_changed env cache f = true) :
    f ∈ (rebuildPlan env root false cache).2 := by
  unfold rebuildPlan get_files_to_rebuild
  simp only [if_false, Bool.false_eq_true]
  rw [mem_expandRebuild]
  left
  rw [mem_pySet]
  exact List.mem_filter.mpr ⟨hs, hc⟩

/-! ## Helper lemmas: the compile loop of build_all -/

theorem buildFold_counts (env : Env) (l : List String) :
    ∀ (c0 : BuildCache) (s0 f0 : Nat) (m0 : List String),
      (l.foldl (buildStep env) (c0, s0, f0, m0)).2.1 +
          (l.foldl (buildStep env) (c0, s0, f0, m0)).2.2.1 = s0 + f0 + l.length ∧
        (l.foldl (buildStep env) (c0, s0, f0, m0)).2.2.2 =
          m0 ++ l.map (fun p => (env.compile p).2) := by
  induction l with
  | nil =>
    intro c0 s0 f0 m0
    simp
  | cons p l ih =>
    intro c0 s0 f0 m0
    simp only [List.foldl_cons, buildStep]
    by_cases h : (env.compile p).1 = true
    · rw [if_pos h]
      obtain ⟨h1, h2⟩ := ih _ (s0 + 1) f0 (m0 ++ [(env.compile p).2])
      refine ⟨by rw [h1]; simp; omega, by rw [h2]; simp⟩
    · rw [if_neg h]
      obtain ⟨h1, h2⟩ := ih c0 s0 (f0 + 1) (m0 ++ [(env.compile p).2])
      refine ⟨by rw [h1]; simp; omega, by rw [h2]; simp⟩

theorem buildFold_meta (env : Env) (l : List String) :
    ∀ (c0 : BuildCache) (s0 f0 : Nat) (m0 : List String),
      (l.foldl (buildStep env) (c0, s0, f0, m0)).1.build_count = c0.build_count ∧
        (l.foldl (buildStep env) (c0, s0, f0, m0)).1.last_build = c0.last_build ∧
        (l.foldl (buildStep env) (c0, s0, f0, m0)).1.dependencies = c0.dependencies := by
  induction l with
  | nil =>
    intro c0 s0 f0 m0
    simp
  | cons p l ih =>
    intro c0 s0 f0 m0
    simp only [List.foldl_cons, buildStep]
    by_cases h : (env.compile p).1 = true
    · rw [if_pos h]
      exact ih _ _ _ _
    · rw [if_neg h]
      exact ih _ _ _ _

theorem buildFold_hash_fail (env : Env) (f : String)
    (hf : (env.compile f).1 = false) (l : List String) :
    ∀ (c0 : BuildCache) (s0 f0 : Nat) (m0 : List String) (dflt : String),
      dictGet (l.foldl (buildStep env) (c0, s0, f0, m0)).1.file_hashes f dflt =
        dictGet c0.file_hashes f dflt := by
  induction l with
  | nil =>
    intro c0 s0 f0 m0 dflt
    rfl
  | cons p l ih =>
    intro c0 s0 f0 m0 dflt
    simp only [List.foldl_cons, buildStep]
    by_cases h : (env.compile p).1 = true
    · rw [if_pos h]
      rw [ih _ _ _ _ _]
      have hne : (f == p) = false := by
        simp only [beq_eq_false_iff_ne, ne_eq]
        intro e
        rw [e] at hf
        rw [hf] at h
        exact Bool.false_ne_true h
      exact dictGet_dictSet_other _ _ _ _ _ hne
    · rw [if_neg h]
      exact ih _ _ _ _ _

theorem buildFold_hash_succ (env : Env) (f : String)
    (hf : (env.compile f).1 = true) (l : List String) :
    ∀ (c0 : BuildCache) (s0 f0 : Nat) (m0 : List String),
      (f ∈ l ∨ dictGet c0.file_hashes f "" = compute_file_hash env f) →
        dictGet (l.foldl (buildStep env) (c0, s0, f0, m0)).1.file_hashes f "" =
          compute_file_hash env f := by
  induction l with
  | nil =>
    intro c0 s0 f0 m0 h
    rcases h with h | h
    · exact absurd h (List.not_mem_nil f)
    · exact h
  | cons p l ih =>
    intro c0 s0 f0 m0 h
    simp only [List.foldl_cons, buildStep]
    by_cases hp : (env.compile p).1 = true
    · rw [if_pos hp]
      by_cases hfp : f = p
      · apply ih
        right
        rw [hfp]
        exact dictGet_dictSet_self _ _ _ _
      · apply ih
        rcases h with hm | hd
        · rcases List.mem_cons.mp hm with he | hm2
          · exact absurd he hfp
          · exact Or.inl hm2
        · right
          have hne : (f == p) = false := by
            simp only [beq_eq_false_iff_ne, ne_eq]
            exact hfp
          rw [dictGet_dictSet_other _ _ _ _ _ hne]
          exact hd
    · rw [if_neg hp]
      apply ih
      rcases h with hm | hd
      · rcases List.mem_cons.mp hm with he | hm2
        · rw [he] at hf
          rw [hf] at hp
          exact absurd rfl hp
        · exact Or.inl hm2
      · exact Or.inr hd

/-! ## Helper lemmas: the import extractor -/

theorem getElem1_cons {α : Type} (a : α) (l : List α) : (a :: l)[1]? = l.head? := by
  cases l <;> simp

theorem pySplit_ne_nil (q : Char) (l : List Char) : pySplit q l ≠ [] := by
  cases l with
  | nil => simp [pySplit]
  | cons x xs =>
    simp only [pySplit]
    by_cases hx : (x == q) = true
    · rw [if_pos hx]
      simp
    · rw [if_neg hx]
      simp

theorem pySplit_head (q : Char) (l : List Char) :
    (pySplit q l).head? = some (l.takeWhile (fun c => c != q)) := by
  induction l with
  | nil => rfl
  | cons x xs ih =>
    simp only [pySplit]
    by_cases hx : (x == q) = true
    · rw [if_pos hx]
      have hb : (x != q) = false := by simp [bne, hx]
      simp [List.takeWhile_cons, hb]
    · rw [if_neg hx]
      have hb : (x != q) = true := by
        cases hxq : x == q
        · simp [bne, hxq]
        · exact absurd hxq hx
      cases hr : pySplit q xs with
      | nil => exact absurd hr (pySplit_ne_nil q xs)
      | cons p ps =>
        rw [hr] at ih
        simp only [List.head?_cons, Option.some.injEq] at ih
        simp only [hr, List.headD_cons, List.head?_cons, List.takeWhile_cons, hb,
          if_true, Option.some.injEq]
        rw [ih]

theorem pySplit_decomp (q : Char) (l : List Char) :
    pySplit q l =
      if q ∈ l then
        l.takeWhile (fun c => c != q) ::
          pySplit q ((l.dropWhile (fun c => c != q)).drop 1)
      else [l] := by
  induction l with
  | nil => simp [pySplit]
  | cons x xs ih =>
    simp only [pySplit]
    by_cases hx : (x == q) = true
    · have hxe : x = q := by simpa using hx
      have hb : (x != q) = false := by simp [bne, hx]
      have hmem : q ∈ x :: xs := by
        rw [hxe]
        exact List.mem_cons_self q xs
      rw [if_pos hx, if_pos hmem]
      simp [List.takeWhile_cons, List.dropWhile_cons, hb]
    · have hxe : ¬ (q = x) := by
        intro e
        rw [e] at hx
        simp at hx
      have hb : (x != q) = true := by
        cases hxq : x == q
        · simp [bne, hxq]
        · exact absurd hxq hx
      rw [if_neg hx, ih]
      by_cases hm : q ∈ xs
      · have hmem : q ∈ x :: xs := List.mem_cons_of_mem x hm
        rw [if_pos hm, if_pos hmem]
        simp [List.takeWhile_cons, List.dropWhile_cons, hb]
      · have hmem : ¬ (q ∈ x :: xs) := by
          intro h2
          rcases List.mem_cons.mp h2 with e | h3
          · exact hxe e
          · exact hm h3
        rw [if_neg hm, if_neg hmem]
        simp

theorem pySplit_get1 (q : Char) (l : List Char) :
    (pySplit q l)[1]? =
      if q ∈ l then
        some (((l.dropWhile (fun c => c != q)).drop 1).takeWhile (fun c => c != q))
      else none := by
  rw [pySplit_decomp]
  by_cases hm : q ∈ l
  · rw [if_pos hm, if_pos hm, getElem1_cons, pySplit_head]
  · rw [if_neg hm, if_neg hm, getElem1_cons]
    rfl

theorem lineImport_eq_spec (line : List Char) :
    lineImport line = importOfLineSpec line := by
  unfold lineImport importOfLineSpec
  by_cases hp : ("Import".toList.isPrefixOf (pyStrip line)
      || "import".toList.isPrefixOf (pyStrip line)) = true
  · rw [if_pos hp, pySplit_get1]
    by_cases hq : quoteChar ∈ pyStrip line
    · have hc : (pyStrip line).contains quoteChar = true := List.elem_iff.mpr hq
      rw [if_pos hq, if_pos (by rw [hp, hc]; rfl : (("Import".toList.isPrefixOf (pyStrip line)
        || "import".toList.isPrefixOf (pyStrip line))
          && (pyStrip line).contains quoteChar) = true)]
      simp
    · have hc : (pyStrip line).contains quoteChar = false := by
        cases hcc : (pyStrip line).contains quoteChar
        · rfl
        · exact absurd (List.elem_iff.mp hcc) hq
      rw [if_neg hq, if_neg (by rw [hc, Bool.and_false]; simp :
        ¬ (("Import".toList.isPrefixOf (pyStrip line)
          || "import".toList.isPrefixOf (pyStrip line))
            && (pyStrip line).contains quoteChar) = true)]
      simp
  · have hp2 : ("Import".toList.isPrefixOf (pyStrip line)
        || "import".toList.isPrefixOf (pyStrip line)) = false := by
      cases hpp : ("Import".toList.isPrefixOf (pyStrip line)
          || "import".toList.isPrefixOf (pyStrip line))
      · rfl
      · exact absurd hpp hp
    rw [if_neg hp, if_neg (by rw [hp2, Bool.false_and]; simp :
      ¬ (("Import".toList.isPrefixOf (pyStrip line)
        || "import".toList.isPrefixOf (pyStrip line))
          && (pyStrip line).contains quoteChar) = true)]

theorem importsOfLines_eq (lines : List (List Char)) :
    importsOfLines lines = lines.filterMap lineImport := by
  have h : ∀ (ls : List (List Char)) (acc : List String),
      ls.foldl
          (fun acc line =>
            match lineImport line with
            | some p => acc ++ [p]
            | none => acc)
          acc = acc ++ ls.filterMap lineImport := by
    intro ls
    induction ls with
    | nil =>
      intro acc
      simp
    | cons a l ih =>
      intro acc
      simp only [List.foldl_cons, List.filterMap_cons]
      cases h : lineImport a with
      | none => simp [ih]
      | some p => simp [ih]
  unfold importsOfLines
  rw [h lines []]
  simp

/-! ## Helper lemmas: cache serialization round trip -/

theorem decodeStrPairs_encode (m : List (String × String)) :
    decodeStrPairs (encodeStrPairs m) = some m := by
  induction m with
  | nil => rfl
  | cons kv rest ih =>
    simp only [encodeStrPairs, List.map_cons] at ih ⊢
    simp only [decodeStrPairs, decodeStr, ih]

theorem decodeStrs_encode (l : List String) :
    decodeStrs (l.map (fun s => Json.jstr s)) = some l := by
  induction l with
  | nil => rfl
  | cons s rest ih =>
    simp only [List.map_cons, decodeStrs, decodeStr, ih]

theorem decodeDepPairs_encode (m : List (String × List String)) :
    decodeDepPairs (encodeDepPairs m) = some m := by
  induction m with
  | nil => rfl
  | cons kv rest ih =>
    simp only [encodeDepPairs, List.map_cons] at ih ⊢
    simp only [decodeDepPairs, decodeStrList, decodeStrs_encode, ih]

theorem decodeCache_encodeCache (c : BuildCache) :
    decodeCache (encodeCache c) = some c := by
  have h1 : decodeStrPairs (encodeStrPairs c.file_hashes) = some c.file_hashes :=
    decodeStrPairs_encode c.file_hashes
  have h2 : decodeDepPairs (encodeDepPairs c.dependencies) = some c.dependencies :=
    decodeDepPairs_encode c.dependencies
  have e1 : ("file_hashes" == "last_build") = false := by decide
  have e2 : ("file_hashes" == "dependencies") = false := by decide
  have e3 : ("last_build" == "dependencies") = false := by decide
  have e4 : ("file_hashes" == "build_count") = false := by decide
  have e5 : ("last_build" == "build_count") = false := by decide
  have e6 : ("dependencies" == "build_count") = false := by decide
  simp only [decodeCache, encodeCache, keysMatch, cacheKeys, jlookup, List.map_cons,
    List.map_nil, List.find?, decodeStrMapJ, decodeDepMapJ, decodeStr, decodeInt]
  norm_num
  simp [e1, e2, e3, e4, e5, e6, h1, h2]

/-! ## Helper lemmas: build_all characterization -/

theorem rebuildPlan_meta (env : Env) (root : String) (force : Bool) (cache : BuildCache) :
    (rebuildPlan env root force cache).1.file_hashes = cache.file_hashes ∧
      (rebuildPlan env root force cache).1.last_build = cache.last_build ∧
      (rebuildPlan env root force cache).1.build_count = cache.build_count := by
  unfold rebuildPlan get_files_to_rebuild
  by_cases hf : force = true
  · rw [hf]
    simp
  · have hf2 : force = false := by
      cases force
      · rfl
      · exact absurd rfl hf
    rw [hf2]
    simp

theorem build_all_empty (env : Env) (root now : String) (force : Bool) (cache : BuildCache)
    (he : (rebuildPlan env root force cache).2 = []) :
    build_all env root now force cache =
      ⟨(rebuildPlan env root force cache).1, false, 0, 0, ["No files to build"]⟩ := by
  simp only [build_all]
  rw [he]
  simp

theorem build_all_nonempty (env : Env) (root now : String) (force : Bool) (cache : BuildCache)
    (hne : (rebuildPlan env root force cache).2 ≠ []) :
    build_all env root now force cache =
      ⟨{ ((pySorted (rebuildPlan env root force cache).2).foldl (buildStep env)
            ((rebuildPlan env root force cache).1, 0, 0, [])).1 with
          last_build := now,
          build_count :=
            ((pySorted (rebuildPlan env root force cache).2).foldl (buildStep env)
              ((rebuildPlan env root force cache).1, 0, 0, [])).1.build_count + 1 },
        true,
        ((pySorted (rebuildPlan env root force cache).2).foldl (buildStep env)
          ((rebuildPlan env root force cache).1, 0, 0, [])).2.1,
        ((pySorted (rebuildPlan env root force cache).2).foldl (buildStep env)
          ((rebuildPlan env root force cache).1, 0, 0, [])).2.2.1,
        ((pySorted (rebuildPlan env root force cache).2).foldl (buildStep env)
          ((rebuildPlan env root force cache).1, 0, 0, [])).2.2.2⟩ := by
  have he : (rebuildPlan env root force cache).2.isEmpty = false := by
    cases hp : (rebuildPlan env root force cache).2
    · exact absurd hp hne
    · rfl
  simp only [build_all]
  rw [he]
  simp

/-! ## Claim theorems -/

/-- C1: for every changed set and dependency graph, the rebuild set is
exactly the union of the changed set with the files whose direct dependency
list contains a changed file — a single hop only: with A depending on B and
B on C, changing only C does not pull in A, while flagging B as well does. -/
theorem C1_rebuild_set_union :
    (∀ (changed : List String) (graph : List (String × List String)) (f : String),
      f ∈ expandRebuild changed graph ↔
        f ∈ changed ∨ ∃ fd ∈ graph, fd.1 = f ∧ ∃ c ∈ changed, c ∈ fd.2) ∧
      (∀ (env : Env) (root : String) (cache : BuildCache) (changed : List String),
        (get_files_to_rebuild env root cache changed).2 =
          expandRebuild changed (build_dependency_graph env root)) ∧
      "A" ∉ expandRebuild ["C"] [("A", ["B"]), ("B", ["C"])] ∧
      "A" ∈ expandRebuild ["B", "C"] [("A", ["B"]), ("B", ["C"])] := by
  refine ⟨fun changed graph f => mem_expandRebuild changed graph f,
    fun env root cache changed => rfl, by decide, by decide⟩

/-- C2 (amended): digests are updated only right after a successful compile
and a failed compile leaves the stored digest in place, so a failed file that
had been flagged as changed (stored digest differs from the fresh digest) is
again in the next incremental rebuild set. -/
theorem C2_failed_compile_keeps_digest_and_retries (env : Env)
    (root now : String) (force : Bool) (cache : BuildCache) (f : String)
    (hplan : f ∈ (rebuildPlan env root force cache).2) :
    ((env.compile f).1 = false →
        dictGet (build_all env root now force cache).cache.file_hashes f "" =
            dictGet cache.file_hashes f "" ∧
          (has_file_changed env cache f = true →
            f ∈ (rebuildPlan env root false
              (build_all env root now force cache).cache).2)) ∧
      ((env.compile f).1 = true →
        dictGet (build_all env root now force cache).cache.file_hashes f "" =
          compute_file_hash env f) := by
  have hne : (rebuildPlan env root force cache).2 ≠ [] := by
    intro he
    rw [he] at hplan
    exact List.not_mem_nil f hplan
  have hba := build_all_nonempty env root now force cache hne
  have hcache_fh : (build_all env root now force cache).cache.file_hashes =
      ((pySorted (rebuildPlan env root force cache).2).foldl (buildStep env)
        ((rebuildPlan env root force cache).1, 0, 0, [])).1.file_hashes := by
    rw [hba]
  constructor
  · intro hcf
    have hpres : dictGet (build_all env root now force cache).cache.file_hashes f "" =
        dictGet cache.file_hashes f "" := by
      rw [hcache_fh]
      rw [buildFold_hash_fail env f hcf (pySorted (rebuildPlan env root force cache).2)
        (rebuildPlan env root force cache).1 0 0 [] ""]
      rw [(rebuildPlan_meta env root force cache).1]
    refine ⟨hpres, ?_⟩
    intro hch
    have hs : f ∈ env.sources := rebuildPlan_subset env root force cache f hplan
    have hch2 : has_file_changed env (build_all env root now force cache).cache f = true := by
      unfold has_file_changed at hch ⊢
      rw [hpres]
      exact hch
    exact changed_mem_plan env root (build_all env root now force cache).cache f hs hch2
  · intro hcs
    rw [hcache_fh]
    apply buildFold_hash_succ env f hcs
    left
    unfold pySorted
    exact (List.perm_insertionSort _ _).mem_iff.mpr hplan

/-- Witness for C2: a changed file whose compile fails keeps its stored
digest and is selected again by the next incremental cycle. -/
theorem C2_witness :
    dictGet (build_all envC "/p" "t1" false cacheC).cache.file_hashes "/p/a.poh" "" =
        dictGet cacheC.file_hashes "/p/a.poh" "" ∧
      "/p/a.poh" ∈ (rebuildPlan envC "/p" false
        (build_all envC "/p" "t1" false cacheC).cache).2 := by
  have h := C2_failed_compile_keeps_digest_and_retries envC "/p" "t1" false cacheC
    "/p/a.poh" (by decide)
  have h2 := h.1 (by decide)
  exact ⟨h2.1, h2.2 (by decide)⟩

/-- Counterexample to C2 as stated: `main.poh` is rebuilt only as a dependent
of the changed `util.poh` (its own digest is current), its compile fails, its
content is unchanged, and yet the next incremental cycle does not include
it. -/
theorem C2_counterexample :
    "/p/main.poh" ∈ (rebuildPlan envB "/p" false cacheB).2 ∧
      (envB.compile "/p/main.poh").1 = false ∧
      (build_all envB "/p" "t1" false cacheB).failure_count = 1 ∧
      "/p/main.poh" ∉ (rebuildPlan envB "/p" false
        (build_all envB "/p" "t1" false cacheB).cache).2 := by
  refine ⟨by decide, by decide, by decide, by decide⟩

/-- C3 (amended): `has_file_changed` compares a freshly computed digest with
the stored digest, a missing entry being read as the empty string; the digest
of a non-existent file is the empty string; hence a missing stored digest
counts as changed exactly when the fresh digest is nonempty.  The function
returns a Bool and passes the cache by value: it performs no mutation. -/
theorem C3_has_file_changed (env : Env) (cache : BuildCache) (p : String) :
    (env.fs p = none → compute_file_hash env p = "") ∧
      (has_file_changed env cache p = true ↔
        compute_file_hash env p ≠ dictGet cache.file_hashes p "") ∧
      (cache.file_hashes.find? (fun kv => kv.1 == p) = none →
        compute_file_hash env p ≠ "" →
        has_file_changed env cache p = true) := by
  refine ⟨?_, ?_, ?_⟩
  · intro h
    unfold compute_file_hash
    rw [h]
  · unfold has_file_changed
    simp [bne_iff_ne]
  · intro hf hne
    have hd : dictGet cache.file_hashes p "" = "" := by
      unfold dictGet
      rw [hf]
    unfold has_file_changed
    rw [hd]
    simp [bne_iff_ne]
    exact hne

/-- Witness for C3 on the empty filesystem and empty cache. -/
theorem C3_witness :
    compute_file_hash envA "x.poh" = "" ∧
      (has_file_changed envA emptyCache "x.poh" = true ↔
        compute_file_hash envA "x.poh" ≠ dictGet emptyCache.file_hashes "x.poh" "") := by
  have h := C3_has_file_changed envA emptyCache "x.poh"
  exact ⟨h.1 rfl, h.2.1⟩

/-- Counterexample to C3 as stated: for a non-existent file with no stored
digest the stored digest is missing, yet `has_file_changed` reports false
(the empty fresh digest equals the empty default). -/
theorem C3_counterexample :
    emptyCache.file_hashes.find? (fun kv => kv.1 == "x.poh") = none ∧
      has_file_changed envA emptyCache "x.poh" = false := by
  exact ⟨rfl, by decide⟩

/-- C4: the import extractor emits, in file order with duplicates preserved,
the first double-quoted substring of every line whose stripped form starts
with Import or import (first letter case-permissive only: IMPORT does not
match). -/
theorem C4_extract_imports (env : Env) (p : String) (content : String)
    (h : env.fs p = some content) :
    extract_imports env p = (pyLines content).filterMap lineImport ∧
      (∀ line : List Char, lineImport line = importOfLineSpec line) ∧
      extract_imports env p = (pyLines content).filterMap importOfLineSpec ∧
      importsOfLines [("IMPORT \"a.poh\"").toList] = [] ∧
      importsOfLines [("Import \"a.poh\"").toList, ("  import \"b.poh\"  ").toList,
        ("Import \"a.poh\"").toList] = ["a.poh", "b.poh", "a.poh"] := by
  have h1 : extract_imports env p = (pyLines content).filterMap lineImport := by
    unfold extract_imports
    rw [h]
    exact importsOfLines_eq (pyLines content)
  refine ⟨h1, lineImport_eq_spec, ?_, by decide, by decide⟩
  rw [h1]
  exact List.filterMap_congr (fun line _ => lineImport_eq_spec line)

/-- Witness for C4 on the concrete project of `envB`. -/
theorem C4_witness :
    extract_imports envB "/p/main.poh" =
      (pyLines "Import \"util.poh\"").filterMap lineImport := by
  exact (C4_extract_imports envB "/p/main.poh" "Import \"util.poh\"" (by decide)).1

/-- C5: import resolution tries the path relative to the importing file's
directory first, then relative to the project root; when neither exists,
the import yields no dependency edge and no error (the resolver returns
none and the graph only records successfully resolved imports). -/
theorem C5_resolve_import_path (env : Env) (root imp source : String) :
    ((env.fs (env.join (env.parent source) imp)).isSome = true →
        resolve_import_path env root imp source =
          some (env.resolve (env.join (env.parent source) imp))) ∧
      ((env.fs (env.join (env.parent source) imp)).isSome = false →
        (env.fs (env.join root imp)).isSome = true →
        resolve_import_path env root imp source =
          some (env.resolve (env.join root imp))) ∧
      ((env.fs (env.join (env.parent source) imp)).isSome = false →
        (env.fs (env.join root imp)).isSome = false →
        resolve_import_path env root imp source = none) ∧
      (∀ pr ∈ build_dependency_graph env root, ∀ d ∈ pr.2,
        ∃ imp2 ∈ extract_imports env pr.1,
          resolve_import_path env root imp2 pr.1 = some d) := by
  refine ⟨?_, ?_, ?_, ?_⟩
  · intro h1
    simp [resolve_import_path, h1]
  · intro h1 h2
    simp [resolve_import_path, h1, h2]
  · intro h1 h2
    simp [resolve_import_path, h1, h2]
  · intro pr hpr d hd
    rw [(graph_keys env root pr hpr).2] at hd
    obtain ⟨imp2, him, hres⟩ := List.mem_filterMap.mp hd
    exact ⟨imp2, him, hres⟩

/-- Witness for C5 on the empty filesystem: an unresolvable import gives no
edge and no error. -/
theorem C5_witness : resolve_import_path envA "/r" "x.poh" "/s/main.poh" = none :=
  (C5_resolve_import_path envA "/r" "x.poh" "/s/main.poh").2.2.1 rfl rfl

/-- C6: BuildCache.load never raises: a missing file, text that is not valid
JSON, a JSON value that is not an object, and a JSON object whose keys do not
match the dataclass fields all produce the fresh empty cache (empty digest
map, empty dependency map, empty timestamp, counter zero). -/
theorem C6_load_total :
    BuildCache.load CacheFile.missing = emptyCache ∧
      BuildCache.load CacheFile.notJson = emptyCache ∧
      (∀ fields : List (String × Json),
        keysMatch (fields.map (fun kv => kv.1)) = false →
        BuildCache.load (CacheFile.parsed (Json.jobj fields)) = emptyCache) ∧
      (∀ xs : List Json, BuildCache.load (CacheFile.parsed (Json.jarr xs)) = emptyCache) ∧
      emptyCache = ⟨[], "", [], 0⟩ := by
  refine ⟨rfl, rfl, ?_, fun xs => rfl, rfl⟩
  intro fields hk
  simp [BuildCache.load, decodeCache, hk]

/-- Witness for C6: an object with a single wrong key loads as the empty
cache. -/
theorem C6_witness :
    BuildCache.load (CacheFile.parsed (Json.jobj [("oops", Json.jnum 1)])) = emptyCache :=
  C6_load_total.2.2.1 [("oops", Json.jnum 1)] (by decide)

/-- C7: saving a cache and loading it back reproduces an identical digest
mapping and build counter. -/
theorem C7_roundtrip (c : BuildCache) :
    (BuildCache.load (BuildCache.save c)).file_hashes = c.file_hashes ∧
      (BuildCache.load (BuildCache.save c)).build_count = c.build_count := by
  have h : BuildCache.load (BuildCache.save c) = c := by
    simp only [BuildCache.load, BuildCache.save]
    rw [decodeCache_encodeCache]
  rw [h]
  exact ⟨rfl, rfl⟩

/-- C8: with a non-empty rebuild set, build_all compiles the files in
lexicographically sorted path order, attempts every file (no early abort),
returns counts summing to the size of the rebuild set, and emits one message
per file. -/
theorem C8_build_order_and_counts (env : Env) (root now : String) (force : Bool)
    (cache : BuildCache)
    (hne : (rebuildPlan env root force cache).2 ≠ []) :
    (build_all env root now force cache).success_count +
        (build_all env root now force cache).failure_count =
        (rebuildPlan env root force cache).2.length ∧
      (build_all env root now force cache).messages =
        (pySorted (rebuildPlan env root force cache).2).map
          (fun p => (env.compile p).2) ∧
      (build_all env root now force cache).messages.length =
        (rebuildPlan env root force cache).2.length ∧
      List.Sorted (fun a b => strLeB a b = true)
        (pySorted (rebuildPlan env root force cache).2) ∧
      (pySorted (rebuildPlan env root force cache).2).Perm
        (rebuildPlan env root force cache).2 := by
  have hba := build_all_nonempty env root now force cache hne
  obtain ⟨h1, h2⟩ := buildFold_counts env (pySorted (rebuildPlan env root force cache).2)
    (rebuildPlan env root force cache).1 0 0 []
  have hperm : (pySorted (rebuildPlan env root force cache).2).Perm
      (rebuildPlan env root force cache).2 := by
    unfold pySorted
    exact List.perm_insertionSort _ _
  have hlen : (pySorted (rebuildPlan env root force cache).2).length =
      (rebuildPlan env root force cache).2.length := hperm.length_eq
  have hsc : (build_all env root now force cache).success_count =
      ((pySorted (rebuildPlan env root force cache).2).foldl (buildStep env)
        ((rebuildPlan env root force cache).1, 0, 0, [])).2.1 := by
    rw [hba]
  have hfc : (build_all env root now force cache).failure_count =
      ((pySorted (rebuildPlan env root force cache).2).foldl (buildStep env)
        ((rebuildPlan env root force cache).1, 0, 0, [])).2.2.1 := by
    rw [hba]
  have hmsg : (build_all env root now force cache).messages =
      ((pySorted (rebuildPlan env root force cache).2).foldl (buildStep env)
        ((rebuildPlan env root force cache).1, 0, 0, [])).2.2.2 := by
    rw [hba]
  refine ⟨?_, ?_, ?_, ?_, hperm⟩
  · rw [hsc, hfc, h1, hlen]
    omega
  · rw [hmsg, h2]
    simp
  · rw [hmsg, h2]
    simp [hlen]
  · unfold pySorted
    exact List.sorted_insertionSort _ _

/-- Witness for C8 on the concrete two-file project of `envD`. -/
theorem C8_witness :
    (build_all envD "/q" "t2" false emptyCache).success_count +
        (build_all envD "/q" "t2" false emptyCache).failure_count =
        (rebuildPlan envD "/q" false emptyCache).2.length ∧
      (build_all envD "/q" "t2" false emptyCache).messages =
        (pySorted (rebuildPlan envD "/q" false emptyCache).2).map
          (fun p => (envD.compile p).2) := by
  have h := C8_build_order_and_counts envD "/q" "t2" false emptyCache (by decide)
  exact ⟨h.1, h.2.1⟩

/-- Counterexample to C9 as stated: with no command, `main()` of plhub.py
prints help and returns 0, and the process exits with that value via
`sys.exit(main() or 0)` — not with code 2. -/
theorem C9_counterexample :
    plhub_main none (fun _ => 0) = (true, 0) ∧
      (plhub_main none (fun _ => 0)).2 ≠ 2 := by
  exact ⟨rfl, by decide⟩

/-- C9 (amended): with no command plhub.py prints help and exits with code
0; a command's handler result is the exit code, 0 meaning success and 1
generic failure (as in run_program); the SDK compatibility wrapper's main is
the function that returns 2 with help when no run command is given. -/
theorem C9_exit_codes :
    (∀ handler : PlhubCommand → Int, plhub_main none handler = (true, 0)) ∧
      (∀ (handler : PlhubCommand → Int) (c : PlhubCommand),
        plhub_main (some c) handler = (false, handler c)) ∧
      run_program true false = 0 ∧
      run_program true true = 1 ∧
      run_program false false = 1 ∧
      run_program false true = 1 ∧
      (∀ b : Bool, cli_wrapper_main none b = (true, 2)) := by
  exact ⟨fun _ => rfl, fun _ _ => rfl, rfl, rfl, rfl, rfl, fun _ => rfl⟩

/-- Counterexample to C10 as stated: on a build with an empty rebuild set the
returned message is the no-files one and nothing is saved, but the in-memory
cache is not left unchanged — its dependencies field is refreshed by
get_files_to_rebuild. -/
theorem C10_counterexample :
    (rebuildPlan envE "/p" false cacheE).2 = [] ∧
      (build_all envE "/p" "t1" false cacheE).messages = ["No files to build"] ∧
      (build_all envE "/p" "t1" false cacheE).saved = false ∧
      (build_all envE "/p" "t1" false cacheE).cache.dependencies ≠ cacheE.dependencies ∧
      (build_all envE "/p" "t1" false cacheE).cache ≠ cacheE := by
  refine ⟨by decide, by decide, by decide, by decide, by decide⟩

/-- C10 (amended): an empty rebuild plan (non-force) yields
(0, 0, ["No files to build"]), no save, and preserves digests, timestamp and
counter, while the in-memory dependencies map is refreshed to the newly
computed graph; every build with a non-empty plan saves the cache and
increments the build counter by exactly one, even if every compile fails. -/
theorem C10_frame (env : Env) (root now : String) (cache : BuildCache) :
    ((rebuildPlan env root false cache).2 = [] →
        build_all env root now false cache =
          ⟨{ cache with dependencies := build_dependency_graph env root },
            false, 0, 0, ["No files to build"]⟩) ∧
      (∀ force : Bool, (rebuildPlan env root force cache).2 ≠ [] →
        (build_all env root now force cache).saved = true ∧
          (build_all env root now force cache).cache.build_count =
            cache.build_count + 1) := by
  constructor
  · intro he
    rw [build_all_empty env root now false cache he]
    have h1 : (rebuildPlan env root false cache).1 =
        { cache with dependencies := build_dependency_graph env root } := by
      unfold rebuildPlan get_files_to_rebuild
      simp
    rw [h1]
  · intro force hne
    have hba := build_all_nonempty env root now force cache hne
    constructor
    · rw [hba]
    · have hbc : (build_all env root now force cache).cache.build_count =
          ((pySorted (rebuildPlan env root force cache).2).foldl (buildStep env)
            ((rebuildPlan env root force cache).1, 0, 0, [])).1.build_count + 1 := by
        rw [hba]
      rw [hbc]
      rw [(buildFold_meta env (pySorted (rebuildPlan env root force cache).2)
        (rebuildPlan env root force cache).1 0 0 []).1]
      rw [(rebuildPlan_meta env root force cache).2.2]

/-- Witness for C10: the empty-plan branch on `envE` and the nonempty-plan
branch on `envD`. -/
theorem C10_witness :
    build_all envE "/p" "t1" false cacheE =
        ⟨{ cacheE with dependencies := build_dependency_graph envE "/p" },
          false, 0, 0, ["No files to build"]⟩ ∧
      (build_all envD "/q" "t3" false emptyCache).saved = true ∧
      (build_all envD "/q" "t3" false emptyCache).cache.build_count =
        emptyCache.build_count + 1 := by
  refine ⟨(C10_frame envE "/p" "t1" cacheE).1 (by decide), ?_, ?_⟩
  · exact ((C10_frame envD "/q" "t3" emptyCache).2 false (by decide)).1
  · exact ((C10_frame envD "/q" "t3" emptyCache).2 false (by decide)).2
